import Mathlib

/-!
Verification development for the validatron repository.

The repository contains two evolutions of its error-aggregation core:

* `src/validatron/src/error.rs` (modelled in namespace `ErrorRs`): the
  wrap-and-merge design.  `Location` has constructors `Named` and `Index`
  (map keys are rendered as `Named`), `Error` is `Unstructured` (a list of
  messages) or `Structured` (a `HashMap` from `Location` to `Error`,
  modelled as an association list), and `Error::merge` is total: mismatched
  shapes are resolved by wrapping the unstructured side under the location
  `Named "errors"`.

* `src/validatron/src/lib.rs` (modelled in namespace `LibRs`): the older
  design.  `Location` has constructors `NamedField`, `MapKey`, `Index`;
  `Error` is `Field` or `Structured`; `Error::merge` panics on mismatched
  shapes and `Structured + Structured` uses `HashMap::extend`, which
  overwrites entries at duplicate keys.  `ErrorBuilder::because` and the
  container impls (`validate_seq`, `Option`) live in this file.

* `src/validatron_derive/src/lib.rs` (modelled in namespace `DeriveRs`):
  the derive macro; for enum variants it registers every payload component
  with `eb.at_named(binder.to_string(), binder.validate())`.

Rust `Result<(), Error>` is modelled as `Option Error` (`none` is `Ok(())`,
`some e` is `Err(e)`); a Rust panic is modelled by an outer `Option`
(`none` is a panic).  `HashMap` is modelled as an association list; the
`Entry` API acts on the first entry with the given key, which for the
duplicate-free lists a `HashMap` produces is the only one.
-/

namespace ErrorRs

/-- Location within a data structure, from `error.rs`: a named (struct
field or map key) or an indexed position. -/
inductive Location : Type where
  | Named (name : String)
  | Index (index : Nat)
deriving DecidableEq, Repr

/-- Validation error from `error.rs`: a flat unstructured list of reasons,
or a structured map from locations to nested errors. -/
inductive Error : Type where
  | Unstructured (msgs : List String)
  | Structured (map : List (Location × Error))

/-- First-match association-list lookup, modelling `HashMap` access. -/
def lookupE : List (Location × Error) → Location → Option Error
  | [], _ => none
  | (k, e) :: rest, k0 => if k = k0 then some e else lookupE rest k0

mutual

/-- Termination weight of an error (unstructured nodes weigh 1). -/
def wE : Error → Nat
  | .Unstructured _ => 1
  | .Structured m => 2 + wL m

/-- Termination weight of an association list of errors. -/
def wL : List (Location × Error) → Nat
  | [] => 0
  | (_, e) :: rest => 1 + wE e + wL rest

end

theorem wE_pos (e : Error) : 0 < wE e := by
  cases e <;> simp [wE]

theorem wL_lookupE {m : List (Location × Error)} {k : Location} {v : Error}
    (h : lookupE m k = some v) : wE v < wL m := by
  induction m with
  | nil => simp [lookupE] at h
  | cons p rest ih =>
    obtain ⟨k1, e1⟩ := p
    simp only [lookupE] at h
    by_cases hk : k1 = k
    · simp [hk] at h
      subst h
      simp [wL]
      omega
    · simp [hk] at h
      have := ih h
      simp [wL]
      omega

mutual

/-- `Error::merge` from `error.rs`.  `Unstructured + Unstructured`
concatenates the message lists; `Structured + Structured` folds the right
map into the left, merging recursively at shared keys; a mismatched pair
wraps the unstructured side as a singleton map at `Named "errors"` and
merges the two structured maps (for `Unstructured + Structured` the code
first swaps the operands).  The fold over the right map is modelled
pointwise — entries of the left map adjusted by `adjust`, then the right
map's entries at new keys appended — which agrees with the source's
entry-by-entry loop on the duplicate-free maps a `HashMap` yields. -/
def merge : Error → Error → Error
  | .Unstructured xs, .Unstructured ys => .Unstructured (xs ++ ys)
  | .Unstructured xs, .Structured n =>
      .Structured (adjust n [(Location.Named "errors", .Unstructured xs)] ++
        ([(Location.Named "errors", Error.Unstructured xs)].filter
          (fun p => (lookupE n p.1).isNone)))
  | .Structured m, .Unstructured ys =>
      .Structured (adjust m [(Location.Named "errors", .Unstructured ys)] ++
        ([(Location.Named "errors", Error.Unstructured ys)].filter
          (fun p => (lookupE m p.1).isNone)))
  | .Structured m, .Structured n =>
      .Structured (adjust m n ++ (n.filter (fun p => (lookupE m p.1).isNone)))
termination_by a b => wE a + wE b
decreasing_by
  all_goals (simp [wE, wL] <;> omega)

/-- Pointwise update of the left map by the right map: every entry of the
left map whose key also occurs in the right map is replaced by the
recursive merge of the two errors; other entries pass through. -/
def adjust : List (Location × Error) → List (Location × Error) →
    List (Location × Error)
  | [], _ => []
  | (k, e) :: rest, n =>
      (k, mergeOpt e (lookupE n k)) :: adjust rest n
termination_by m n => wL m + wL n
decreasing_by
  · rcases h : lookupE n k with _ | v
    · simp [wL, h]
      omega
    · have := wL_lookupE h
      simp [wL, h]
      omega
  · simp [wL] <;> omega

/-- The `Entry` disjunction of the structured merge loop: an occupied key
merges the stored error with the incoming one, a vacant key keeps the
stored error. -/
def mergeOpt (e : Error) : Option Error → Error
  | some v => merge e v
  | none => e
termination_by o => wE e + (match o with | some v => wE v + 1 | none => 0)
decreasing_by
  simp [wE, wL] <;> omega

end

theorem lookupE_append (l1 l2 : List (Location × Error)) (k : Location) :
    lookupE (l1 ++ l2) k =
      match lookupE l1 k with
      | some e => some e
      | none => lookupE l2 k := by
  induction l1 with
  | nil => simp [lookupE]
  | cons p rest ih =>
    obtain ⟨k1, e1⟩ := p
    by_cases hk : k1 = k <;> simp [lookupE, hk, ih]

theorem lookupE_adjust (m n : List (Location × Error)) (k : Location) :
    lookupE (adjust m n) k =
      match lookupE m k with
      | some e =>
          some (match lookupE n k with
                | some v => merge e v
                | none => e)
      | none => none := by
  induction m with
  | nil => simp [lookupE, adjust]
  | cons p rest ih =>
    obtain ⟨k1, e1⟩ := p
    rw [adjust]
    by_cases hk : k1 = k
    · subst hk
      cases hv : lookupE n k1 <;> simp [lookupE, hv, mergeOpt]
    · cases hv : lookupE n k1 <;> simp [lookupE, hk, hv, ih, mergeOpt]

theorem lookupE_filter_of_none (m n : List (Location × Error)) (k : Location)
    (h : lookupE m k = none) :
    lookupE (n.filter (fun p => (lookupE m p.1).isNone)) k = lookupE n k := by
  induction n with
  | nil => simp [lookupE]
  | cons p rest ih =>
    obtain ⟨k1, e1⟩ := p
    by_cases hk : k1 = k
    · subst hk
      simp [List.filter, h, lookupE, ih]
    · by_cases hdrop : (lookupE m k1).isNone <;>
        simp [List.filter, hdrop, lookupE, hk, ih]

theorem lookupE_filter_of_some (m n : List (Location × Error)) (k : Location)
    (e : Error) (h : lookupE m k = some e) :
    lookupE (n.filter (fun p => (lookupE m p.1).isNone)) k = none := by
  induction n with
  | nil => simp [lookupE]
  | cons p rest ih =>
    obtain ⟨k1, e1⟩ := p
    by_cases hk : k1 = k
    · subst hk
      simp [List.filter, h, lookupE, ih]
    · by_cases hdrop : (lookupE m k1).isNone <;>
        simp [List.filter, hdrop, lookupE, hk, ih]

/-- The `Structured + Structured` branch of `merge`, characterised
pointwise: the result maps a key to the recursive merge when both sides
hold it, and to the unique side's entry otherwise. -/
theorem lookupE_merge_structured (m n : List (Location × Error))
    (k : Location) :
    lookupE (adjust m n ++ n.filter (fun p => (lookupE m p.1).isNone)) k =
      match lookupE m k, lookupE n k with
      | some x, some y => some (merge x y)
      | some x, none => some x
      | none, some y => some y
      | none, none => none := by
  rw [lookupE_append, lookupE_adjust]
  cases hm : lookupE m k with
  | none =>
    rw [lookupE_filter_of_none m n k hm]
    cases hn : lookupE n k <;> simp
  | some x =>
    cases hn : lookupE n k <;> simp [lookupE_filter_of_some m n k x hm]

mutual

/-- Recursive non-emptiness of an error: no `Structured` node has an empty
map and no `Unstructured` node has an empty message list. -/
def nonEmptyE : Error → Bool
  | .Unstructured xs => !xs.isEmpty
  | .Structured m => !m.isEmpty && nonEmptyL m

/-- Every error in the association list is recursively non-empty. -/
def nonEmptyL : List (Location × Error) → Bool
  | [] => true
  | (_, e) :: rest => nonEmptyE e && nonEmptyL rest

end

theorem nonEmptyL_append (l1 l2 : List (Location × Error)) :
    nonEmptyL (l1 ++ l2) = (nonEmptyL l1 && nonEmptyL l2) := by
  induction l1 with
  | nil => simp [nonEmptyL]
  | cons p rest ih =>
    obtain ⟨k1, e1⟩ := p
    simp [nonEmptyL, ih, Bool.and_assoc]

theorem nonEmptyL_lookupE {m : List (Location × Error)} {k : Location}
    {v : Error} (hm : nonEmptyL m) (h : lookupE m k = some v) :
    nonEmptyE v := by
  induction m with
  | nil => simp [lookupE] at h
  | cons p rest ih =>
    obtain ⟨k1, e1⟩ := p
    simp only [nonEmptyL, Bool.and_eq_true] at hm
    simp only [lookupE] at h
    by_cases hk : k1 = k
    · simp [hk] at h
      exact h ▸ hm.1
    · simp [hk] at h
      exact ih hm.2 h

theorem nonEmptyL_filter (n : List (Location × Error))
    (p : Location × Error → Bool) (hn : nonEmptyL n = true) :
    nonEmptyL (n.filter p) = true := by
  induction n with
  | nil => simp [nonEmptyL]
  | cons q rest ih =>
    obtain ⟨k1, e1⟩ := q
    simp only [nonEmptyL, Bool.and_eq_true] at hn
    by_cases hp : p (k1, e1) <;>
      simp [List.filter, hp, nonEmptyL, hn.1, ih hn.2]

theorem adjust_ne_nil {m : List (Location × Error)}
    (n : List (Location × Error)) (hm : m ≠ []) : adjust m n ≠ [] := by
  cases m with
  | nil => exact absurd rfl hm
  | cons p rest =>
    obtain ⟨k1, e1⟩ := p
    rw [adjust]
    simp

theorem nonEmpty_merge_adjust (N : Nat) :
    (∀ a b, wE a + wE b ≤ N → nonEmptyE a → nonEmptyE b →
      nonEmptyE (merge a b)) ∧
    (∀ m n, wL m + wL n ≤ N → nonEmptyL m → nonEmptyL n →
      nonEmptyL (adjust m n)) := by
  induction N using Nat.strong_induction_on with
  | _ N ih =>
  constructor
  · intro a b hle ha hb
    match a, b with
    | .Unstructured xs, .Unstructured ys =>
      simp [merge, nonEmptyE] at ha hb ⊢
      simp [ha]
    | .Unstructured xs, .Structured n =>
      simp only [nonEmptyE, Bool.and_eq_true] at ha hb
      have hwf : wL n + wL [(Location.Named "errors", Error.Unstructured xs)]
          < N := by
        simp only [wE, wL] at hle ⊢
        omega
      have hsingle : nonEmptyL [(Location.Named "errors", .Unstructured xs)]
          = true := by
        simp [nonEmptyL, nonEmptyE, ha]
      have hadj := (ih _ hwf).2 n
        [(Location.Named "errors", .Unstructured xs)] le_rfl hb.2 hsingle
      rw [merge]
      simp only [nonEmptyE, Bool.and_eq_true, nonEmptyL_append]
      refine ⟨?_, hadj, nonEmptyL_filter _ _ hsingle⟩
      have : adjust n [(Location.Named "errors", Error.Unstructured xs)]
          ≠ [] := by
        apply adjust_ne_nil
        simpa using hb.1
      simp [this]
    | .Structured m, .Unstructured ys =>
      simp only [nonEmptyE, Bool.and_eq_true] at ha hb
      have hwf : wL m + wL [(Location.Named "errors", Error.Unstructured ys)]
          < N := by
        simp only [wE, wL] at hle ⊢
        omega
      have hsingle : nonEmptyL [(Location.Named "errors", .Unstructured ys)]
          = true := by
        simp [nonEmptyL, nonEmptyE, hb]
      have hadj := (ih _ hwf).2 m
        [(Location.Named "errors", .Unstructured ys)] le_rfl ha.2 hsingle
      rw [merge]
      simp only [nonEmptyE, Bool.and_eq_true, nonEmptyL_append]
      refine ⟨?_, hadj, nonEmptyL_filter _ _ hsingle⟩
      have : adjust m [(Location.Named "errors", Error.Unstructured ys)]
          ≠ [] := by
        apply adjust_ne_nil
        simpa using ha.1
      simp [this]
    | .Structured m, .Structured n =>
      simp only [nonEmptyE, Bool.and_eq_true] at ha hb
      have hwf : wL m + wL n < N := by
        simp only [wE] at hle
        omega
      have hadj := (ih _ hwf).2 m n le_rfl ha.2 hb.2
      rw [merge]
      simp only [nonEmptyE, Bool.and_eq_true, nonEmptyL_append]
      refine ⟨?_, hadj, nonEmptyL_filter _ _ hb.2⟩
      have : adjust m n ≠ [] := by
        apply adjust_ne_nil
        simpa using ha.1
      simp [this]
  · intro m n hle hm hn
    match m with
    | [] => simp [adjust, nonEmptyL]
    | (k, e) :: rest =>
      simp only [nonEmptyL, Bool.and_eq_true] at hm
      have hrest : wL rest + wL n < N := by
        simp only [wL] at hle
        have := wE_pos e
        omega
      have hadj := (ih _ hrest).2 rest n le_rfl hm.2 hn
      rw [adjust]
      cases h : lookupE n k with
      | none => simp [nonEmptyL, mergeOpt, h, hm.1, hadj]
      | some v =>
        have hv : wE e + wE v < N := by
          have h1 := wL_lookupE h
          simp only [wL] at hle
          omega
        have hmerge := (ih _ hv).1 e v le_rfl hm.1 (nonEmptyL_lookupE hn h)
        simp [nonEmptyL, mergeOpt, h, hmerge, hadj]

/-- Merging two recursively non-empty errors yields a recursively
non-empty error. -/
theorem nonEmptyE_merge {a b : Error} (ha : nonEmptyE a) (hb : nonEmptyE b) :
    nonEmptyE (merge a b) :=
  (nonEmpty_merge_adjust (wE a + wE b)).1 a b le_rfl ha hb

/-- `Error::new` from `error.rs`: a single-message unstructured error. -/
def Error.new (message : String) : Error := .Unstructured [message]

/-- The `HashMap` `Entry` step of `build_structured`: at an occupied key
the stored error is merged with the incoming one, at a vacant key the
incoming error is inserted. -/
def addEntry : List (Location × Error) → Location → Error →
    List (Location × Error)
  | [], loc, e => [(loc, e)]
  | (k, v) :: rest, loc, e =>
      if k = loc then (k, merge v e) :: rest
      else (k, v) :: addEntry rest loc e

/-- `build_structured` from `error.rs`.  The pending error is taken out of
the builder; a pending `Unstructured` error panics (the code's
`should never happen` arm, modelled as `none`), otherwise the incoming
error is inserted (or merged) at `loc` and the result stored back. -/
def build_structured (errs : Option Error) (loc : Location) (err : Error) :
    Option (Option Error) :=
  match errs with
  | some (.Unstructured _) => none
  | some (.Structured hm) => some (some (.Structured (addEntry hm loc err)))
  | none => some (some (.Structured [(loc, err)]))

/-- `ErrorBuilder::try_at_location` from `error.rs`: an `Ok` result is a
no-op, an `Err` result is registered through `build_structured`. -/
def try_at_location (st : Option Error) (loc : Location)
    (result : Option Error) : Option (Option Error) :=
  match result with
  | none => some st
  | some e => build_structured st loc e

/-- `ErrorBuilder::build` from `error.rs` (same code as in `lib.rs`): the
pending error is taken out of the builder and returned as `Err`, or `Ok`
when there is none.  The first component is the returned result, the
second the builder state afterwards. -/
def build (st : Option Error) : Option Error × Option Error := (st, none)

/-- A run of an `ErrorBuilder`: a list of `try_at_location`
registrations, starting from the given state.  `none` models a panic in
one of the steps. -/
def runBuilder : Option Error → List (Location × Option Error) →
    Option (Option Error)
  | st, [] => some st
  | st, (loc, res) :: rest =>
      match try_at_location st loc res with
      | none => none
      | some st2 => runBuilder st2 rest

theorem filter_singleton_lookup (m : List (Location × Error))
    (loc : Location) (e : Error) :
    [(loc, e)].filter (fun p => (lookupE m p.1).isNone) =
      if (lookupE m loc).isNone then [(loc, e)] else [] := by
  cases h : lookupE m loc <;> simp [List.filter, h]

theorem adjust_singleton_not_mem (rest : List (Location × Error))
    (loc : Location) (e : Error) (h : loc ∉ rest.map Prod.fst) :
    adjust rest [(loc, e)] = rest := by
  induction rest with
  | nil => simp [adjust]
  | cons p tail ih =>
    obtain ⟨k1, e1⟩ := p
    simp only [List.map_cons, List.mem_cons] at h
    push_neg at h
    rw [adjust]
    have hk : lookupE [(loc, e)] k1 = none := by
      have : ¬ (loc = k1) := h.1
      simp [lookupE, this]
    simp [hk, mergeOpt, ih h.2]

/-- On a duplicate-free map, the `Entry` insert-or-merge of
`build_structured` agrees with merging the singleton map
`Structured [(loc, e)]` via `Error::merge`. -/
theorem addEntry_eq_merge_singleton (m : List (Location × Error))
    (loc : Location) (e : Error) (hnd : (m.map Prod.fst).Nodup) :
    Error.Structured (addEntry m loc e) =
      merge (.Structured m) (.Structured [(loc, e)]) := by
  rw [merge]
  congr 1
  induction m with
  | nil => simp [addEntry, adjust, lookupE, List.filter]
  | cons p rest ih =>
    obtain ⟨k1, e1⟩ := p
    simp only [List.map_cons, List.nodup_cons] at hnd
    rw [addEntry, adjust, filter_singleton_lookup]
    by_cases hk : k1 = loc
    · subst hk
      simp [lookupE, mergeOpt, adjust_singleton_not_mem rest k1 e hnd.1]
    · have h1 : lookupE [(loc, e)] k1 = none := by
        have : ¬ (loc = k1) := fun hc => hk hc.symm
        simp [lookupE, this]
      have h2 : lookupE ((k1, e1) :: rest) loc = lookupE rest loc := by
        simp [lookupE, hk]
      have ih2 := ih hnd.2
      rw [filter_singleton_lookup] at ih2
      simp [h1, h2, mergeOpt, hk, ih2]
      rw [h2]

/-- Builder-state invariant: the pending error is absent, or a
recursively non-empty `Structured` error. -/
def InvSt (st : Option Error) : Prop :=
  st = none ∨ ∃ m, st = some (.Structured m) ∧ nonEmptyE (.Structured m)

theorem addEntry_ne_nil (m : List (Location × Error)) (loc : Location)
    (e : Error) : addEntry m loc e ≠ [] := by
  cases m with
  | nil => simp [addEntry]
  | cons p rest =>
    obtain ⟨k1, e1⟩ := p
    rw [addEntry]
    by_cases hk : k1 = loc <;> simp [hk]

theorem nonEmptyL_addEntry {m : List (Location × Error)} (loc : Location)
    {e : Error} (hm : nonEmptyL m) (he : nonEmptyE e) :
    nonEmptyL (addEntry m loc e) := by
  induction m with
  | nil => simp [addEntry, nonEmptyL, he]
  | cons p rest ih =>
    obtain ⟨k1, e1⟩ := p
    simp only [nonEmptyL, Bool.and_eq_true] at hm
    rw [addEntry]
    by_cases hk : k1 = loc
    · simp [hk, nonEmptyL, nonEmptyE_merge hm.1 he, hm.2]
    · simp [hk, nonEmptyL, hm.1, ih hm.2]

theorem build_structured_inv {st : Option Error} (loc : Location)
    {e : Error} (hst : InvSt st) (he : nonEmptyE e) :
    ∃ st2, build_structured st loc e = some (some st2) ∧
      nonEmptyE st2 ∧ ∃ m2, st2 = .Structured m2 := by
  rcases hst with h | ⟨m, hm, hne⟩
  · subst h
    refine ⟨.Structured [(loc, e)], rfl, ?_, [(loc, e)], rfl⟩
    simp [nonEmptyE, nonEmptyL, he]
  · subst hm
    refine ⟨.Structured (addEntry m loc e), rfl, ?_, addEntry m loc e, rfl⟩
    simp only [nonEmptyE, Bool.and_eq_true] at hne ⊢
    refine ⟨?_, nonEmptyL_addEntry loc hne.2 he⟩
    simp [addEntry_ne_nil m loc e]

theorem runBuilder_ok (regs : List (Location × Option Error))
    (h : ∀ r ∈ regs, r.2 = none) (st : Option Error) :
    runBuilder st regs = some st := by
  induction regs generalizing st with
  | nil => rfl
  | cons r rest ih =>
    obtain ⟨loc, res⟩ := r
    have hr : res = none := h (loc, res) (List.mem_cons_self _ _)
    subst hr
    rw [runBuilder]
    simp only [try_at_location]
    exact ih (fun r hr => h r (List.mem_cons_of_mem _ hr)) st

theorem runBuilder_inv {st : Option Error}
    (regs : List (Location × Option Error)) (hst : InvSt st)
    (h : ∀ r ∈ regs, ∀ e, r.2 = some e → nonEmptyE e) :
    ∃ st2, runBuilder st regs = some st2 ∧ InvSt st2 := by
  induction regs generalizing st with
  | nil => exact ⟨st, rfl, hst⟩
  | cons r rest ih =>
    obtain ⟨loc, res⟩ := r
    rw [runBuilder]
    cases res with
    | none =>
      simp only [try_at_location]
      exact ih hst (fun r hr => h r (List.mem_cons_of_mem _ hr))
    | some e =>
      have he : nonEmptyE e :=
        h (loc, some e) (List.mem_cons_self _ _) e rfl
      obtain ⟨st2, heq, hne, m2, hm2⟩ := build_structured_inv loc hst he
      simp only [try_at_location, heq]
      exact ih (Or.inr ⟨m2, by rw [hm2], by rw [← hm2]; exact hne⟩)
        (fun r hr => h r (List.mem_cons_of_mem _ hr))

end ErrorRs

namespace LibRs

/-- Location from `lib.rs`: a named struct field, a map key, or an index. -/
inductive Location : Type where
  | NamedField (name : String)
  | MapKey (key : String)
  | Index (index : Nat)
deriving DecidableEq, Repr

/-- Validation error from `lib.rs`: a flat list of reasons (`Field`), or a
structured map from locations to nested errors. -/
inductive Error : Type where
  | Field (msgs : List String)
  | Structured (map : List (Location × Error))

/-- One step of `HashMap::extend`: insert the pair, overwriting the value
stored at an already present key. -/
def replaceOrAppend : List (Location × Error) → Location → Error →
    List (Location × Error)
  | [], k, v => [(k, v)]
  | (k1, v1) :: rest, k, v =>
      if k1 = k then (k1, v) :: rest
      else (k1, v1) :: replaceOrAppend rest k v

/-- `HashMap::extend` over an association list: later entries overwrite
earlier ones at equal keys. -/
def extendMap : List (Location × Error) → List (Location × Error) →
    List (Location × Error)
  | x, [] => x
  | x, (k, v) :: rest => extendMap (replaceOrAppend x k v) rest

/-- `Error::merge` from `lib.rs`.  `Field + Field` concatenates,
`Structured + Structured` extends the left map by the right one
(overwriting at shared keys), and any mismatched pair panics
(`can only merge duplicate variants`), modelled as `none`. -/
def merge (a b : Error) : Option Error :=
  match a, b with
  | .Field x, .Field y => some (.Field (x ++ y))
  | .Field _, .Structured _ => none
  | .Structured x, .Structured y => some (.Structured (extendMap x y))
  | .Structured _, .Field _ => none

/-- `ErrorBuilder::because` from `lib.rs`: merge a single-message `Field`
error into the pending error, creating it when absent.  The outer `Option`
models a panic inside `merge`. -/
def because (st : Option Error) (message : String) : Option (Option Error) :=
  match st with
  | some e => (merge e (.Field [message])).map some
  | none => some (some (.Field [message]))

/-- The `Entry` step of `build_structured` from `lib.rs`: at an occupied
key the stored error is merged (which can panic, hence `Option`), at a
vacant key the incoming error is inserted. -/
def addEntry : List (Location × Error) → Location → Error →
    Option (List (Location × Error))
  | [], loc, e => some [(loc, e)]
  | (k, v) :: rest, loc, e =>
      if k = loc then (merge v e).map (fun w => (k, w) :: rest)
      else (addEntry rest loc e).map (fun tail => (k, v) :: tail)

/-- `build_structured` from `lib.rs`: an `Ok` result is a no-op; an `Err`
result is inserted (or merged) at `loc` into the pending error, which
panics when the pending error is a `Field` (`should never happen`). -/
def build_structured (errs : Option Error) (loc : Location)
    (result : Option Error) : Option (Option Error) :=
  match result with
  | none => some errs
  | some e =>
      match errs with
      | some (.Field _) => none
      | some (.Structured hm) =>
          (addEntry hm loc e).map (fun m2 => some (.Structured m2))
      | none => some (some (.Structured [(loc, e)]))

/-- A run of the `at_index` loop of `validate_seq` from `lib.rs`, over
already enumerated elements. -/
def runSeq {α : Type} (f : α → Option Error) :
    Option Error → List (Nat × α) → Option (Option Error)
  | st, [] => some st
  | st, (i, x) :: rest =>
      match build_structured st (.Index i) (f x) with
      | none => none
      | some st2 => runSeq f st2 rest

/-- `validate_seq` from `lib.rs`: a fresh builder registers each element's
validation outcome at its index, then `build` hands back the pending
error.  The outer `Option` models a panic; the inner `Option Error` is the
returned `Result` (`none` is `Ok(())`). -/
def validate_seq {α : Type} (f : α → Option Error) (xs : List α) :
    Option (Option Error) :=
  runSeq f none xs.enum

/-- The `Validate` impl for `Option<T>` from `lib.rs`: it validates the
option as a sequence of zero or one elements. -/
def optionValidate {α : Type} (f : α → Option Error) (o : Option α) :
    Option (Option Error) :=
  validate_seq f o.toList

end LibRs

namespace DeriveRs

/-- Shape of an enum variant's payload in `validatron_derive`: named
(struct-like) fields, or unnamed (tuple-like) fields counted by position. -/
inductive Fields : Type where
  | named (names : List String)
  | unnamed (count : Nat)

/-- `iflet_members` from `validatron_derive/src/lib.rs`: the binder tokens
introduced by the generated `if let` pattern — the field names for a
struct-like payload, and `_0`, `_1`, ... for a tuple-like payload. -/
def iflet_members : Fields → List String
  | .named names => names
  | .unnamed count => (List.range count).map (fun i => "_" ++ toString i)

/-- `validate_variant_members` from `validatron_derive/src/lib.rs`: for
each binder token `x` the generated code runs
`eb.at_named(x.to_string(), x.validate())`, so each payload component is
registered at the `Named` location holding the binder's string form. -/
def validate_variant_members (tokens : List String) : List ErrorRs.Location :=
  tokens.map (fun x => ErrorRs.Location.Named x)

/-- Locations at which the generated `#[validatron]` variant validator
attributes the payload components of a matched variant. -/
def variant_member_locations (f : Fields) : List ErrorRs.Location :=
  validate_variant_members (iflet_members f)

/-- The generated validation routine for a matched enum variant: a fresh
builder registers each payload component's outcome at that component's
location, then builds. -/
def variant_validate (f : Fields) (outcomes : List (Option ErrorRs.Error)) :
    Option (Option ErrorRs.Error) :=
  ErrorRs.runBuilder none ((variant_member_locations f).zip outcomes)

/-- The attribution the claim describes, written from the spec's words:
tuple-like payload components at `Index` locations by position, struct-like
components at `Named` locations. -/
def claimed_variant_locations : Fields → List ErrorRs.Location
  | .named names => names.map (fun s => ErrorRs.Location.Named s)
  | .unnamed count => (List.range count).map (fun i => ErrorRs.Location.Index i)

end DeriveRs

namespace validators

/-- Failure message of `validators::min`, embedding both rendered values. -/
def minMsg (value bound : Int) : String :=
  "\x27" ++ toString value ++
    "\x27 must be greater than or equal to \x27" ++ toString bound ++ "\x27"

/-- `validators::min` from `validators.rs`, at an ordered integer type:
fails exactly when `value < bound`. -/
def min (value bound : Int) : Option ErrorRs.Error :=
  if value < bound then some (ErrorRs.Error.new (minMsg value bound))
  else none

/-- Failure message of `validators::max`, embedding both rendered values. -/
def maxMsg (value bound : Int) : String :=
  "\x27" ++ toString value ++
    "\x27 must be less than or equal to \x27" ++ toString bound ++ "\x27"

/-- `validators::max` from `validators.rs`, at an ordered integer type:
fails exactly when `value > bound`. -/
def max (value bound : Int) : Option ErrorRs.Error :=
  if value > bound then some (ErrorRs.Error.new (maxMsg value bound))
  else none

end validators

/-- The `Dummy` validatable type of the `lib.rs` tests: `Dummy(true)`
validates, `Dummy(false)` fails with the single reason `false`. -/
def dummyValidate : Bool → Option LibRs.Error :=
  fun b => if b then none else some (.Field ["false"])

/-- Claim C1: merging two `Structured` errors yields a `Structured` error
whose mapping is the union of the two mappings; a `Location` present in
both sides maps to the recursive merge of the two sub-errors (both
retained), and a `Location` present in only one side passes through
unchanged. -/
theorem claim_C1_structured_merge_union
    (m n : List (ErrorRs.Location × ErrorRs.Error)) :
    ∃ r, ErrorRs.merge (.Structured m) (.Structured n) = .Structured r ∧
      ∀ k, ErrorRs.lookupE r k =
        match ErrorRs.lookupE m k, ErrorRs.lookupE n k with
        | some x, some y => some (ErrorRs.merge x y)
        | some x, none => some x
        | none, some y => some y
        | none, none => none := by
  refine ⟨ErrorRs.adjust m n ++
    n.filter (fun p => (ErrorRs.lookupE m p.1).isNone), ?_, ?_⟩
  · rw [ErrorRs.merge]
  · exact fun k => ErrorRs.lookupE_merge_structured m n k

/-- Claim C2: merging an `Unstructured` error with a `Structured` one, in
either order, never panics and equals merging the `Structured` side with
the unstructured side wrapped as a singleton map at the key location
spelled `errors` (the code's `Location::Named("errors")`, which is how
`error.rs` renders a map key); in particular the spec's concrete example
evaluates as stated. -/
theorem claim_C2_cross_shape_merge (xs : List String)
    (n : List (ErrorRs.Location × ErrorRs.Error)) :
    (ErrorRs.merge (.Unstructured xs) (.Structured n) =
      ErrorRs.merge (.Structured n)
        (.Structured [(ErrorRs.Location.Named "errors", .Unstructured xs)])) ∧
    (ErrorRs.merge (.Structured n) (.Unstructured xs) =
      ErrorRs.merge (.Structured n)
        (.Structured [(ErrorRs.Location.Named "errors", .Unstructured xs)])) ∧
    (ErrorRs.merge (.Unstructured ["b"])
        (.Structured [(ErrorRs.Location.Named "dummy", .Unstructured ["x"])]) =
      .Structured [(ErrorRs.Location.Named "dummy", .Unstructured ["x"]),
        (ErrorRs.Location.Named "errors", .Unstructured ["b"])]) ∧
    (ErrorRs.merge
        (.Structured [(ErrorRs.Location.Named "dummy", .Unstructured ["x"])])
        (.Unstructured ["b"]) =
      .Structured [(ErrorRs.Location.Named "dummy", .Unstructured ["x"]),
        (ErrorRs.Location.Named "errors", .Unstructured ["b"])]) := by
  refine ⟨by simp only [ErrorRs.merge], by simp only [ErrorRs.merge], ?_, ?_⟩ <;>
    simp [ErrorRs.merge, ErrorRs.adjust, ErrorRs.mergeOpt, ErrorRs.lookupE]

/-- Claim C9: merging two `Unstructured` errors concatenates the message
lists in encounter order, the left operand's messages first. -/
theorem claim_C9_unstructured_concat (xs ys : List String) :
    ErrorRs.merge (.Unstructured xs) (.Unstructured ys) =
      .Unstructured (xs ++ ys) ∧
    ErrorRs.merge (.Unstructured ["a"]) (.Unstructured ["b"]) =
      .Unstructured ["a", "b"] := by
  constructor <;> simp [ErrorRs.merge]

/-- Claim C10: `build` takes the pending error out of the builder, so a
second `build` on the same builder returns `Ok` regardless of earlier
recorded failures. -/
theorem claim_C10_build_twice (st : Option ErrorRs.Error) :
    ErrorRs.build st = (st, none) ∧
    ErrorRs.build (ErrorRs.build st).2 = (none, none) :=
  ⟨rfl, rfl⟩

/-- Claim C8: `min` fails exactly when the value is below the bound and
`max` exactly when it is above (both bounds inclusive); the boundary
examples evaluate as stated, and each failure is a single-reason error
whose message embeds both rendered values. -/
theorem claim_C8_min_max_bounds (v b : Int) :
    ((validators.min v b).isSome ↔ v < b) ∧
    ((validators.max v b).isSome ↔ v > b) ∧
    validators.min 5 5 = none ∧
    validators.max 5 5 = none ∧
    (validators.min 4 5).isSome ∧
    (validators.max 6 5).isSome ∧
    (v < b → validators.min v b =
      some (.Unstructured [validators.minMsg v b])) ∧
    (v > b → validators.max v b =
      some (.Unstructured [validators.maxMsg v b])) ∧
    (∃ p q r, validators.minMsg v b =
      p ++ toString v ++ q ++ toString b ++ r) ∧
    (∃ p q r, validators.maxMsg v b =
      p ++ toString v ++ q ++ toString b ++ r) := by
  refine ⟨?_, ?_, ?_, ?_, ?_, ?_, ?_, ?_,
    ⟨"\x27", "\x27 must be greater than or equal to \x27", "\x27", ?_⟩,
    ⟨"\x27", "\x27 must be less than or equal to \x27", "\x27", ?_⟩⟩
  · by_cases h : v < b <;> simp [validators.min, h]
  · by_cases h : v > b <;> simp [validators.max, h]
  · simp [validators.min]
  · simp [validators.max]
  · simp [validators.min]
  · simp [validators.max]
  · intro h
    simp [validators.min, h, ErrorRs.Error.new]
  · intro h
    simp [validators.max, h, ErrorRs.Error.new]
  · simp [validators.minMsg]
  · simp [validators.maxMsg]

/-- Claim C8 witness: the two conditional conclusions at the concrete
failing inputs. -/
theorem claim_C8_min_max_bounds_witness :
    validators.min 4 5 =
      some (.Unstructured [validators.minMsg 4 5]) ∧
    validators.max 6 5 =
      some (.Unstructured [validators.maxMsg 6 5]) :=
  ⟨(claim_C8_min_max_bounds 4 5).2.2.2.2.2.2.1 (by decide),
   (claim_C8_min_max_bounds 6 5).2.2.2.2.2.2.2.1 (by decide)⟩

/-- Claim C3 counterexample: with a pending `Unstructured` error,
registering a failing outcome hits the `should never happen` panic of
`build_structured` instead of merging, so the claim's universal no-panic
statement fails at this state. -/
theorem claim_C3_counterexample :
    ErrorRs.try_at_location (some (.Unstructured ["m"]))
      (ErrorRs.Location.Named "a") (some (ErrorRs.Error.new "boom")) =
      none :=
  rfl

/-- Claim C3 as amended: a successful outcome is a no-op in every builder
state; a failing outcome registered when the pending error is absent
creates `Structured [(loc, error)]`, and when the pending error is a
`Structured` map (with the duplicate-free keys a `HashMap` guarantees) it
merges `Structured [(loc, error)]` into it; with a pending `Unstructured`
error the code panics instead. -/
theorem claim_C3_try_at_location (st : Option ErrorRs.Error)
    (loc : ErrorRs.Location) (e : ErrorRs.Error) :
    (ErrorRs.try_at_location st loc none = some st) ∧
    (st = none → ErrorRs.try_at_location st loc (some e) =
      some (some (.Structured [(loc, e)]))) ∧
    (∀ m, st = some (.Structured m) → (m.map Prod.fst).Nodup →
      ErrorRs.try_at_location st loc (some e) =
        some (some (ErrorRs.merge (.Structured m)
          (.Structured [(loc, e)])))) := by
  refine ⟨rfl, ?_, ?_⟩
  · intro h
    subst h
    rfl
  · intro m hm hnd
    subst hm
    simp only [ErrorRs.try_at_location, ErrorRs.build_structured]
    rw [ErrorRs.addEntry_eq_merge_singleton m loc e hnd]

/-- Claim C3 witness: the amended theorem applied at a concrete empty
state and at a concrete pending `Structured` state. -/
theorem claim_C3_try_at_location_witness :
    (ErrorRs.try_at_location none (ErrorRs.Location.Named "a")
      (some (ErrorRs.Error.new "m")) =
      some (some (.Structured
        [(ErrorRs.Location.Named "a", ErrorRs.Error.new "m")]))) ∧
    (ErrorRs.try_at_location
        (some (.Structured
          [(ErrorRs.Location.Named "a", ErrorRs.Error.new "m")]))
        (ErrorRs.Location.Named "a") (some (ErrorRs.Error.new "n")) =
      some (some (ErrorRs.merge
        (.Structured [(ErrorRs.Location.Named "a", ErrorRs.Error.new "m")])
        (.Structured [(ErrorRs.Location.Named "a",
          ErrorRs.Error.new "n")])))) :=
  ⟨(claim_C3_try_at_location none (ErrorRs.Location.Named "a")
      (ErrorRs.Error.new "m")).2.1 rfl,
   (claim_C3_try_at_location _ (ErrorRs.Location.Named "a")
      (ErrorRs.Error.new "n")).2.2 _ rfl (by simp)⟩

/-- Claim C7 counterexample: with a pending `Structured` error, `because`
reaches the `can only merge duplicate variants` panic of the `lib.rs`
merge, so the claim's universal no-panic statement fails at this state. -/
theorem claim_C7_counterexample :
    LibRs.because
      (some (.Structured [(LibRs.Location.NamedField "a", .Field ["x"])]))
      "b" = none :=
  rfl

/-- Claim C7 as amended: `because` appends the message when the pending
error is absent or `Field` (unstructured), but panics whenever the pending
error is `Structured`, because the `lib.rs` merge rejects mismatched
shapes instead of wrapping. -/
theorem claim_C7_because (message : String) :
    (LibRs.because none message = some (some (.Field [message]))) ∧
    (∀ xs, LibRs.because (some (.Field xs)) message =
      some (some (.Field (xs ++ [message])))) ∧
    (∀ m, LibRs.because (some (.Structured m)) message = none) :=
  ⟨rfl, fun _ => rfl, fun _ => rfl⟩

/-- Claim C5 counterexample: a tuple-like variant payload with one failing
component is attributed at `Named "_0"` (the binder's string form passed
to `at_named`), not at `Index 0` as the claim states. -/
theorem claim_C5_counterexample :
    DeriveRs.variant_validate (.unnamed 1) [some (ErrorRs.Error.new "bad")] =
      some (some (.Structured
        [(ErrorRs.Location.Named "_0", .Unstructured ["bad"])])) ∧
    DeriveRs.variant_member_locations (.unnamed 2) =
      [ErrorRs.Location.Named "_0", ErrorRs.Location.Named "_1"] ∧
    DeriveRs.variant_member_locations (.unnamed 2) ≠
      DeriveRs.claimed_variant_locations (.unnamed 2) := by
  refine ⟨rfl, by decide, by decide⟩

/-- Claim C5 as amended: the generated variant validator attributes
struct-like payload components at `Named` locations carrying the field
names, but tuple-like payload components at `Named` locations carrying the
binder strings `_0`, `_1`, ..., not at `Index` locations. -/
theorem claim_C5_variant_locations (names : List String) (count : Nat) :
    DeriveRs.variant_member_locations (.named names) =
      names.map (fun s => ErrorRs.Location.Named s) ∧
    DeriveRs.variant_member_locations (.unnamed count) =
      (List.range count).map
        (fun i => ErrorRs.Location.Named ("_" ++ toString i)) := by
  constructor <;>
    simp [DeriveRs.variant_member_locations,
      DeriveRs.validate_variant_members, DeriveRs.iflet_members]

/-- Claim C6 counterexample: validating `Some(Dummy(false))` does not
return the error `Dummy(false)`'s own validate produced; the `Option`
impl goes through `validate_seq`, which wraps it at `Index 0`. -/
theorem claim_C6_counterexample :
    LibRs.optionValidate dummyValidate (some false) ≠
      some (dummyValidate false) ∧
    LibRs.optionValidate dummyValidate (some false) =
      some (some (.Structured [(LibRs.Location.Index 0, .Field ["false"])])) := by
  constructor
  · intro h
    simp [LibRs.optionValidate, LibRs.validate_seq, List.enum,
      LibRs.runSeq, LibRs.build_structured, dummyValidate] at h
  · rfl

/-- Claim C6 as amended: `None` validates to success, `Some x` succeeds
exactly when `x` does, and when `x` fails with error `e` the outcome is
`e` wrapped at `Index 0` (`Structured [(Index 0, e)]`), not `e` itself;
no panic occurs in either case. -/
theorem claim_C6_option_validate {α : Type} (f : α → Option LibRs.Error)
    (x : α) :
    LibRs.optionValidate f none = some none ∧
    (f x = none → LibRs.optionValidate f (some x) = some none) ∧
    (∀ e, f x = some e → LibRs.optionValidate f (some x) =
      some (some (.Structured [(LibRs.Location.Index 0, e)]))) := by
  refine ⟨rfl, ?_, ?_⟩
  · intro h
    simp [LibRs.optionValidate, LibRs.validate_seq, List.enum,
      LibRs.runSeq, LibRs.build_structured, h]
  · intro e h
    simp [LibRs.optionValidate, LibRs.validate_seq, List.enum,
      LibRs.runSeq, LibRs.build_structured, h]

/-- Claim C6 witness: the amended theorem at the `Dummy` validator of the
`lib.rs` tests, on a passing and on a failing inner value. -/
theorem claim_C6_option_validate_witness :
    LibRs.optionValidate dummyValidate (some true) = some none ∧
    LibRs.optionValidate dummyValidate none = some none :=
  ⟨(claim_C6_option_validate dummyValidate true).2.1 rfl,
   (claim_C6_option_validate dummyValidate false).1⟩

/-- Claim C4: a run in which every registered outcome is a success builds
to `Ok` (no error value exists), and a run whose failing outcomes are all
recursively non-empty never panics and produces a pending error that is
recursively non-empty — no `Structured` node with an empty map and no
`Unstructured` node with an empty message list. -/
theorem claim_C4_success_silence_nonempty
    (regs : List (ErrorRs.Location × Option ErrorRs.Error)) :
    ((∀ r ∈ regs, r.2 = none) →
      ErrorRs.runBuilder none regs = some none ∧
      (ErrorRs.build (none : Option ErrorRs.Error)).1 = none) ∧
    ((∀ r ∈ regs, ∀ e, r.2 = some e → ErrorRs.nonEmptyE e) →
      ∃ st, ErrorRs.runBuilder none regs = some st ∧
        ∀ e, st = some e → ErrorRs.nonEmptyE e) := by
  constructor
  · intro h
    exact ⟨ErrorRs.runBuilder_ok regs h none, rfl⟩
  · intro h
    obtain ⟨st2, heq, hinv⟩ :=
      ErrorRs.runBuilder_inv regs (Or.inl rfl) h
    refine ⟨st2, heq, ?_⟩
    intro e he
    rcases hinv with h0 | ⟨m, hm, hne⟩
    · rw [h0] at he
      cases he
    · rw [hm] at he
      injection he with h2
      rw [← h2]
      exact hne

/-- Claim C4 witness: the theorem at an all-success run and at a run with
one non-empty failing outcome. -/
theorem claim_C4_success_silence_nonempty_witness :
    (ErrorRs.runBuilder none [(ErrorRs.Location.Named "a", none)] =
      some none) ∧
    (∃ st, ErrorRs.runBuilder none
        [(ErrorRs.Location.Named "a", some (ErrorRs.Error.new "x"))] =
        some st ∧ ∀ e, st = some e → ErrorRs.nonEmptyE e) :=
  ⟨((claim_C4_success_silence_nonempty
      [(ErrorRs.Location.Named "a", none)]).1 (by simp)).1,
   (claim_C4_success_silence_nonempty
      [(ErrorRs.Location.Named "a", some (ErrorRs.Error.new "x"))]).2
      (by
        intro r hr e he
        simp only [List.mem_singleton] at hr
        subst hr
        simp only [ErrorRs.Error.new, Option.some_inj] at he
        subst he
        simp [ErrorRs.nonEmptyE])⟩
